import Mathlib

/-!
# Verification of the `ppa` encrypted password store

Shallow embedding of the core store layer of the `ppa` command-line
password manager (`src/util.rs` and the store-relevant branches of
`src/main.rs`), together with theorems settling the specification's
claims about it.

Modelling conventions:

* Bytes are `Nat` (each in `0..256` where it matters); files are `List Nat`.
* The filesystem state relevant to the store is the single vault file,
  modelled as `Option (List Nat)` (`none` = file absent).
* `aes_gcm::Aes256Gcm` and `serde_json` are external library code, so they
  are abstracted as structures (`Aead`, `Serde`); theorems that depend on
  their behaviour take the relevant contract as an explicit hypothesis at
  the instantiation the store code uses.
* Rust's `str::as_bytes` / `std::str::from_utf8` are modelled by a concrete
  UTF-8 encoder/decoder over `List Nat`, defined below, with a proved
  round-trip lemma.
* A Rust panic (`GenericArray::from_slice` on a slice of the wrong length)
  is modelled as a distinguished outcome of the embedded function.
* The random nonce `thread_rng().gen()` is modelled as an explicit input.
-/

namespace Ppa

/-- One credential entry; embeds `Entry` from `src/util.rs` lines 20-29
(fields `name`, `username`, `password`, `comments`, all strings). -/
structure Entry where
  name : String
  username : String
  password : String
  comments : String
deriving DecidableEq

/-! ## UTF-8 (model of Rust `str::as_bytes` / `std::str::from_utf8`) -/

/-- UTF-8 encoding of one Unicode scalar value `v` (a `Char.toNat`). -/
def utf8EncodeChar (v : Nat) : List Nat :=
  if v < 0x80 then [v]
  else if v < 0x800 then [0xC0 + v / 0x40, 0x80 + v % 0x40]
  else if v < 0x10000 then
    [0xE0 + v / 0x1000, 0x80 + v / 0x40 % 0x40, 0x80 + v % 0x40]
  else
    [0xF0 + v / 0x40000, 0x80 + v / 0x1000 % 0x40, 0x80 + v / 0x40 % 0x40,
      0x80 + v % 0x40]

/-- UTF-8 encoding of a character list. -/
def utf8EncodeChars : List Char → List Nat
  | [] => []
  | c :: cs => utf8EncodeChar c.toNat ++ utf8EncodeChars cs

/-- The UTF-8 bytes of a string: model of Rust `str::as_bytes`. -/
def utf8Encode (s : String) : List Nat :=
  utf8EncodeChars s.data

/-- Strict UTF-8 decoding of a byte list into characters, rejecting
overlong forms, surrogates and out-of-range values exactly as Rust's
`std::str::from_utf8` does.  The `fuel` argument only drives the
recursion; every decoded character consumes at least one byte, so
`fuel = length of the list` (as used in `utf8Decode` below) never runs
out before the input does. -/
def utf8DecodeAux : Nat → List Nat → Option (List Char)
  | _, [] => some []
  | 0, _ :: _ => none
  | fuel + 1, b :: rest =>
    if b < 0x80 then
      (utf8DecodeAux fuel rest).map (fun cs => Char.ofNat b :: cs)
    else if b < 0xC2 then none
    else if b < 0xE0 then
      match rest with
      | b1 :: rest2 =>
        if 0x80 ≤ b1 ∧ b1 < 0xC0 then
          (utf8DecodeAux fuel rest2).map
            (fun cs => Char.ofNat ((b - 0xC0) * 0x40 + (b1 - 0x80)) :: cs)
        else none
      | [] => none
    else if b < 0xF0 then
      match rest with
      | b1 :: b2 :: rest3 =>
        if (if b = 0xE0 then 0xA0 ≤ b1 ∧ b1 < 0xC0
            else if b = 0xED then 0x80 ≤ b1 ∧ b1 < 0xA0
            else 0x80 ≤ b1 ∧ b1 < 0xC0) ∧ 0x80 ≤ b2 ∧ b2 < 0xC0 then
          (utf8DecodeAux fuel rest3).map
            (fun cs =>
              Char.ofNat ((b - 0xE0) * 0x1000 + (b1 - 0x80) * 0x40 + (b2 - 0x80)) :: cs)
        else none
      | _ => none
    else if b < 0xF5 then
      match rest with
      | b1 :: b2 :: b3 :: rest4 =>
        if (if b = 0xF0 then 0x90 ≤ b1 ∧ b1 < 0xC0
            else if b = 0xF4 then 0x80 ≤ b1 ∧ b1 < 0x90
            else 0x80 ≤ b1 ∧ b1 < 0xC0) ∧
            (0x80 ≤ b2 ∧ b2 < 0xC0) ∧ (0x80 ≤ b3 ∧ b3 < 0xC0) then
          (utf8DecodeAux fuel rest4).map
            (fun cs =>
              Char.ofNat ((b - 0xF0) * 0x40000 + (b1 - 0x80) * 0x1000 +
                (b2 - 0x80) * 0x40 + (b3 - 0x80)) :: cs)
        else none
      | _ => none
    else none

/-- Decoding a byte list back into a string: model of `std::str::from_utf8`
(line 74 of `src/util.rs`). -/
def utf8Decode (bs : List Nat) : Option String :=
  (utf8DecodeAux bs.length bs).map String.mk

/-! ## External collaborators: AEAD cipher and JSON (de)serialization

`aes_gcm::Aes256Gcm` and `serde_json` are dependencies of the repository,
not code under `src/`, so they are abstracted: an `Aead` value supplies
the `encrypt`/`decrypt` of `Aes256Gcm` (key bytes, 12-byte nonce,
plaintext/ciphertext bytes; `none` models the library's error return),
and a `Serde` value supplies the `serde_json` string conversions for
`Vec<Entry>` (`to_string` is infallible on this type; `none` on `loads`
models a deserialization error).  Theorems state the store's properties
under explicit hypotheses about these operations at exactly the inputs
the store passes them. -/

structure Aead where
  encrypt : List Nat → List Nat → List Nat → Option (List Nat)
  decrypt : List Nat → List Nat → List Nat → Option (List Nat)

structure Serde where
  dumps : List Entry → String
  loads : String → Option (List Entry)

/-! ## The encrypted store (`src/util.rs`) -/

/-- Whether the store file exists (`store_exists`, `src/util.rs` lines
51-53); the filesystem is modelled by the vault file's content. -/
def store_exists (file : Option (List Nat)) : Bool :=
  file.isSome

/-- Result of `load_store`.  The error constructors mirror, in order, the
early return at line 61 of `src/util.rs`, the decrypt failure at lines
71-73, the UTF-8 failure at line 74 and the `serde_json` failure at line
76; the two panic constructors model `GenericArray::from_slice` aborting
the process on a slice of the wrong length (key, line 68; nonce, line
70). -/
inductive LoadResult
  | ok (entries : List Entry)
  | notFound
  | decryptError
  | utf8Error
  | decodeError
  | panicKeyLength
  | panicNonceLength
deriving DecidableEq

/-- Result of `write_store`: the produced file bytes on success, the
mapped encryption failure of lines 91-93 of `src/util.rs`, or the
key-length panic of line 87. -/
inductive WriteResult
  | ok (file : List Nat)
  | encryptError
  | panicKeyLength
deriving DecidableEq

/-- Embeds `load_store` (`src/util.rs` lines 56-79).  `file` is the vault
file's current content (`none` when the path does not exist).  Following
the source: missing file is an early error; the first 12 bytes are taken
as the nonce and the rest as ciphertext (lines 65-66); the key is built
from the password's UTF-8 bytes by `GenericArray::from_slice`, which
panics unless there are exactly 32 (line 68); the nonce is built the same
way and panics unless 12 bytes are available (line 70); then decrypt,
UTF-8 decode and deserialize, each failure mapped to its own error. -/
def load_store (cipher : Aead) (serde : Serde) (file : Option (List Nat))
    (encryption_password : String) : LoadResult :=
  match file with
  | none => .notFound
  | some file_content =>
    let nonce_raw := file_content.take 12
    let content_encrypted := file_content.drop 12
    if (utf8Encode encryption_password).length = 32 then
      let key := utf8Encode encryption_password
      if nonce_raw.length = 12 then
        match cipher.decrypt key nonce_raw content_encrypted with
        | none => .decryptError
        | some decrypted =>
          match utf8Decode decrypted with
          | none => .utf8Error
          | some decrypted_str =>
            match serde.loads decrypted_str with
            | none => .decodeError
            | some entries => .ok entries
      else .panicNonceLength
    else .panicKeyLength

/-- Embeds `write_store` (`src/util.rs` lines 82-98): serialize the
entries, build the key from the password's UTF-8 bytes (panic unless
exactly 32, line 87), encrypt the serialized content under the freshly
generated 12-byte `nonce_raw` (modelled as an input), and produce the
file `nonce || ciphertext` (line 94). -/
def write_store (cipher : Aead) (serde : Serde) (entries : List Entry)
    (encryption_password : String) (nonce_raw : List Nat) : WriteResult :=
  let content := serde.dumps entries
  if (utf8Encode encryption_password).length = 32 then
    let key := utf8Encode encryption_password
    match cipher.encrypt key nonce_raw (utf8Encode content) with
    | none => .encryptError
    | some ciphertext => .ok (nonce_raw ++ ciphertext)
  else .panicKeyLength

/-- The stages of `load_store` that follow the `cipher.decrypt` call
(`src/util.rs` lines 74-78), named so that the file-format theorem can
say what `load_store` does with the two regions of the file. -/
def decryptStages (serde : Serde) : Option (List Nat) → LoadResult
  | none => .decryptError
  | some decrypted =>
    match utf8Decode decrypted with
    | none => .utf8Error
    | some decrypted_str =>
      match serde.loads decrypted_str with
      | none => .decodeError
      | some entries => .ok entries

/-! ## Store-relevant branches of `main` (`src/main.rs`) -/

/-- Embeds the `Init` branch of `main` (`src/main.rs` lines 109-128).
Returns (whether "Store already exists!" was logged, the vault file
afterwards).  Note the source's `Ok(true)` arm only logs and falls
through: the password prompt and the `write_store` of an empty vector run
regardless, so an existing store is overwritten; a failing write exits
the process leaving the file unchanged. -/
def init_command (cipher : Aead) (serde : Serde) (file : Option (List Nat))
    (encryption_password : String) (nonce_raw : List Nat) :
    Bool × Option (List Nat) :=
  let alreadyExists := store_exists file
  match write_store cipher serde [] encryption_password nonce_raw with
  | .ok newFile => (alreadyExists, some newFile)
  | _ => (alreadyExists, file)

/-- Embeds the `Remove` branch of `main` (`src/main.rs` lines 213-229):
filter out every entry whose lowercased name equals the lowercased
requested name; if nothing was removed only warn, otherwise write the
filtered store back (a failing write exits, leaving the file unchanged).
Lean's `String.toLower` stands in for Rust's `str::to_lowercase` (they
agree on ASCII; both lowercase characterwise).  Returns (the in-memory
entry collection afterwards, the vault file afterwards). -/
def remove_command (cipher : Aead) (serde : Serde) (file : Option (List Nat))
    (encryption_password : String) (entries : List Entry) (name : String)
    (nonce_raw : List Nat) : List Entry × Option (List Nat) :=
  let start_len := entries.length
  let filtered := entries.filter (fun entry => entry.name.toLower != name.toLower)
  if filtered.length = start_len then (filtered, file)
  else
    match write_store cipher serde filtered encryption_password nonce_raw with
    | .ok f => (filtered, some f)
    | _ => (filtered, file)

/-! ## Concrete instances used by witnesses

The theorems below hold for every `Aead`/`Serde` satisfying the stated
hypotheses; the following small computable instances realize those
hypotheses on concrete inputs so each theorem can be exercised. -/

/-- A toy AEAD: the ciphertext is the plaintext followed by the key and
nonce as an authentication tag; decryption checks the tag.  It satisfies
round-trip, wrong-key rejection and (for tag bytes) tamper rejection at
the concrete inputs the witnesses use. -/
def tagAead : Aead where
  encrypt := fun key nonce msg => some (msg ++ key ++ nonce)
  decrypt := fun key nonce c =>
    if key.length + nonce.length ≤ c.length ∧
        c.drop (c.length - (key.length + nonce.length)) = key ++ nonce then
      some (c.take (c.length - (key.length + nonce.length)))
    else none

/-- Split a character list on a separator character (toy helper). -/
def splitOnChar (sep : Char) : List Char → List (List Char)
  | [] => [[]]
  | c :: cs =>
    if c = sep then [] :: splitOnChar sep cs
    else
      match splitOnChar sep cs with
      | g :: gs => (c :: g) :: gs
      | [] => [[c]]

/-- Join strings with a separator (toy helper). -/
def joinSep (sep : String) : List String → String
  | [] => ""
  | [s] => s
  | s :: s2 :: rest => s ++ sep ++ joinSep sep (s2 :: rest)

/-- Parse one toy-serialized entry: four comma-separated fields. -/
def parseEntry (item : List Char) : Option Entry :=
  match splitOnChar ',' item with
  | [n, u, p, c] =>
    some (Entry.mk (String.mk n) (String.mk u) (String.mk p) (String.mk c))
  | _ => none

/-- A toy serializer: fields joined by commas, entries by semicolons.
Invertible on entries whose fields avoid the separators, which is all the
witnesses need. -/
def sepSerde : Serde where
  dumps := fun entries =>
    joinSep ";" (entries.map (fun e =>
      e.name ++ "," ++ e.username ++ "," ++ e.password ++ "," ++ e.comments))
  loads := fun s =>
    if s.data = [] then some []
    else
      (splitOnChar ';' s.data).foldr (fun item acc =>
        match acc, parseEntry item with
        | some es, some e => some (e :: es)
        | _, _ => none) (some [])

/-- A 32-byte (ASCII) password used by witnesses. -/
def demoPassword : String := "aaaaaaaaaaaaaaaaaaaaaaaaaaaaaaaa"

/-- A second, different 32-byte password used by witnesses. -/
def demoPassword2 : String := "bbbbbbbbbbbbbbbbbbbbbbbbbbbbbbbb"

/-- A 12-byte nonce used by witnesses. -/
def demoNonce : List Nat := [0, 1, 2, 3, 4, 5, 6, 7, 8, 9, 10, 11]

/-- A second, different 12-byte nonce used by witnesses. -/
def demoNonce2 : List Nat := [11, 10, 9, 8, 7, 6, 5, 4, 3, 2, 1, 0]

/-- A one-entry collection used by witnesses. -/
def demoEntries : List Entry := [Entry.mk "github" "alice" "s3cr3t" ""]

/-- The `tagAead` ciphertext of `demoEntries` under `demoPassword` and
`demoNonce`. -/
def demoCt : List Nat :=
  utf8Encode (sepSerde.dumps demoEntries) ++ utf8Encode demoPassword ++ demoNonce

/-- The `tagAead` ciphertext of `demoEntries` under `demoPassword` and
`demoNonce2`. -/
def demoCt2 : List Nat :=
  utf8Encode (sepSerde.dumps demoEntries) ++ utf8Encode demoPassword ++ demoNonce2

/-- An arbitrary pre-existing vault file content used by the
initialize-overwrite theorem. -/
def demoVault : List Nat := [7, 7, 7]

/-! ## UTF-8 round-trip lemmas -/

/-- The Unicode scalar values a `Char` can carry, in `omega`-friendly form. -/
theorem char_toNat_valid (c : Char) :
    c.toNat < 0xD800 ∨ (0xE000 ≤ c.toNat ∧ c.toNat < 0x110000) := by
  have h := c.valid
  simp only [Char.toNat, UInt32.isValidChar, Nat.isValidChar] at h ⊢
  omega

/-- Decoding after encoding one character consumes exactly one unit of
fuel and produces that character, for any continuation of the stream. -/
theorem utf8DecodeAux_encodeChar (c : Char) (fuel : Nat) (bs : List Nat) :
    utf8DecodeAux (fuel + 1) (utf8EncodeChar c.toNat ++ bs) =
      (utf8DecodeAux fuel bs).map (fun cs => c :: cs) := by
  have hvalid := char_toNat_valid c
  by_cases h1 : c.toNat < 0x80
  · have e : utf8EncodeChar c.toNat = [c.toNat] := by
      unfold utf8EncodeChar; rw [if_pos h1]
    rw [e]
    show utf8DecodeAux (fuel + 1) (c.toNat :: bs) = _
    conv_lhs => unfold utf8DecodeAux
    rw [if_pos h1, Char.ofNat_toNat]
  · by_cases h2 : c.toNat < 0x800
    · have e : utf8EncodeChar c.toNat =
          [0xC0 + c.toNat / 0x40, 0x80 + c.toNat % 0x40] := by
        unfold utf8EncodeChar; rw [if_neg h1, if_pos h2]
      rw [e]
      show utf8DecodeAux (fuel + 1)
        ((0xC0 + c.toNat / 0x40) :: (0x80 + c.toNat % 0x40) :: bs) = _
      conv_lhs => unfold utf8DecodeAux
      rw [if_neg (by omega), if_neg (by omega), if_pos (by omega)]
      simp only
      rw [if_pos (by omega)]
      have hval : (0xC0 + c.toNat / 0x40 - 0xC0) * 0x40 +
          (0x80 + c.toNat % 0x40 - 0x80) = c.toNat := by omega
      rw [hval, Char.ofNat_toNat]
    · by_cases h3 : c.toNat < 0x10000
      · have e : utf8EncodeChar c.toNat =
            [0xE0 + c.toNat / 0x1000, 0x80 + c.toNat / 0x40 % 0x40,
              0x80 + c.toNat % 0x40] := by
          unfold utf8EncodeChar; rw [if_neg h1, if_neg h2, if_pos h3]
        rw [e]
        show utf8DecodeAux (fuel + 1)
          ((0xE0 + c.toNat / 0x1000) :: (0x80 + c.toNat / 0x40 % 0x40) ::
            (0x80 + c.toNat % 0x40) :: bs) = _
        conv_lhs => unfold utf8DecodeAux
        rw [if_neg (by omega), if_neg (by omega), if_neg (by omega),
          if_pos (by omega)]
        simp only
        rw [if_pos ?cond]
        case cond =>
          refine ⟨?_, by omega, by omega⟩
          split
          · omega
          · split <;> omega
        have hval : (0xE0 + c.toNat / 0x1000 - 0xE0) * 0x1000 +
            (0x80 + c.toNat / 0x40 % 0x40 - 0x80) * 0x40 +
            (0x80 + c.toNat % 0x40 - 0x80) = c.toNat := by omega
        rw [hval, Char.ofNat_toNat]
      · have h4 : c.toNat < 0x110000 := by omega
        have e : utf8EncodeChar c.toNat =
            [0xF0 + c.toNat / 0x40000, 0x80 + c.toNat / 0x1000 % 0x40,
              0x80 + c.toNat / 0x40 % 0x40, 0x80 + c.toNat % 0x40] := by
          unfold utf8EncodeChar; rw [if_neg h1, if_neg h2, if_neg h3]
        rw [e]
        show utf8DecodeAux (fuel + 1)
          ((0xF0 + c.toNat / 0x40000) :: (0x80 + c.toNat / 0x1000 % 0x40) ::
            (0x80 + c.toNat / 0x40 % 0x40) :: (0x80 + c.toNat % 0x40) :: bs) = _
        conv_lhs => unfold utf8DecodeAux
        rw [if_neg (by omega), if_neg (by omega), if_neg (by omega),
          if_neg (by omega), if_pos (by omega)]
        simp only
        rw [if_pos ?cond2]
        case cond2 =>
          refine ⟨?_, ⟨by omega, by omega⟩, by omega, by omega⟩
          split
          · omega
          · split <;> omega
        have hval : (0xF0 + c.toNat / 0x40000 - 0xF0) * 0x40000 +
            (0x80 + c.toNat / 0x1000 % 0x40 - 0x80) * 0x1000 +
            (0x80 + c.toNat / 0x40 % 0x40 - 0x80) * 0x40 +
            (0x80 + c.toNat % 0x40 - 0x80) = c.toNat := by omega
        rw [hval, Char.ofNat_toNat]

/-- With enough fuel, decoding the encoding of a character list succeeds
and is the identity. -/
theorem utf8DecodeAux_encodeChars (cs : List Char) :
    ∀ fuel, cs.length ≤ fuel →
      utf8DecodeAux fuel (utf8EncodeChars cs) = some cs := by
  induction cs with
  | nil =>
    intro fuel _
    cases fuel <;> rfl
  | cons c cs ih =>
    intro fuel hfuel
    match fuel, hfuel with
    | f + 1, hfuel =>
      have hlen : cs.length ≤ f := by
        simp only [List.length_cons] at hfuel
        omega
      show utf8DecodeAux (f + 1) (utf8EncodeChar c.toNat ++ utf8EncodeChars cs) = _
      rw [utf8DecodeAux_encodeChar, ih f hlen]
      rfl

/-- Every character encodes to at least one byte. -/
theorem utf8EncodeChar_length_pos (v : Nat) : 1 ≤ (utf8EncodeChar v).length := by
  unfold utf8EncodeChar
  split
  · simp
  · split
    · simp
    · split <;> simp

/-- A character list never has more characters than its encoding has bytes. -/
theorem length_le_utf8EncodeChars (cs : List Char) :
    cs.length ≤ (utf8EncodeChars cs).length := by
  induction cs with
  | nil => simp [utf8EncodeChars]
  | cons c cs ih =>
    show cs.length + 1 ≤ (utf8EncodeChar c.toNat ++ utf8EncodeChars cs).length
    rw [List.length_append]
    have := utf8EncodeChar_length_pos c.toNat
    omega

/-- UTF-8 round-trip: decoding the encoding of a string gives it back. -/
theorem utf8Decode_encode (s : String) : utf8Decode (utf8Encode s) = some s := by
  unfold utf8Decode utf8Encode
  rw [utf8DecodeAux_encodeChars s.data _ (length_le_utf8EncodeChars s.data)]
  rfl

/-! ## Helper lemmas about the store -/

/-- Taking 12 bytes from a file that starts with a 12-byte nonce gives
back the nonce. -/
theorem take_12_append (nonce l : List Nat) (h : nonce.length = 12) :
    (nonce ++ l).take 12 = nonce := by
  rw [← h]; exact List.take_left nonce l

/-- Dropping 12 bytes from a file that starts with a 12-byte nonce gives
the remainder. -/
theorem drop_12_append (nonce l : List Nat) (h : nonce.length = 12) :
    (nonce ++ l).drop 12 = l := by
  rw [← h]; exact List.drop_left nonce l

/-- A successful `write_store` yields exactly `nonce_raw ++ ciphertext`. -/
theorem write_store_ok (cipher : Aead) (serde : Serde) (entries : List Entry)
    (password : String) (nonce ct : List Nat)
    (hkey : (utf8Encode password).length = 32)
    (henc : cipher.encrypt (utf8Encode password) nonce
      (utf8Encode (serde.dumps entries)) = some ct) :
    write_store cipher serde entries password nonce = .ok (nonce ++ ct) := by
  simp only [write_store, hkey, if_true, henc]

/-- Loading a file of the form `nonce ++ ct` succeeds and recovers the
entries, given the cipher and serializer contracts at those inputs. -/
theorem load_store_append (cipher : Aead) (serde : Serde) (entries : List Entry)
    (password : String) (nonce ct : List Nat)
    (hkey : (utf8Encode password).length = 32)
    (hnonce : nonce.length = 12)
    (hdec : cipher.decrypt (utf8Encode password) nonce ct =
      some (utf8Encode (serde.dumps entries)))
    (hserde : serde.loads (serde.dumps entries) = some entries) :
    load_store cipher serde (some (nonce ++ ct)) password = .ok entries := by
  have ht : (nonce ++ ct).take 12 = nonce := by
    rw [← hnonce]; exact List.take_left nonce ct
  have hd : (nonce ++ ct).drop 12 = ct := by
    rw [← hnonce]; exact List.drop_left nonce ct
  simp only [load_store, ht, hd, hkey, hnonce, if_true, hdec, utf8Decode_encode,
    hserde]

/-! ## Claim theorems -/

/-- C1 (round-trip): for any entry collection (including the empty one)
and any password of exactly 32 UTF-8 bytes, saving the collection with
`write_store` to a fresh file and loading it back with `load_store` under
the same password returns exactly the same entries, field-for-field and
in order — given the serializer round-trip and the cipher round-trip at
exactly the inputs the store uses. -/
theorem save_then_load_returns_entries (cipher : Aead) (serde : Serde)
    (entries : List Entry) (password : String) (nonce ct : List Nat)
    (hkey : (utf8Encode password).length = 32)
    (hnonce : nonce.length = 12)
    (hserde : serde.loads (serde.dumps entries) = some entries)
    (henc : cipher.encrypt (utf8Encode password) nonce
      (utf8Encode (serde.dumps entries)) = some ct)
    (hdec : cipher.decrypt (utf8Encode password) nonce ct =
      some (utf8Encode (serde.dumps entries))) :
    write_store cipher serde entries password nonce = .ok (nonce ++ ct) ∧
    load_store cipher serde (some (nonce ++ ct)) password = .ok entries :=
  ⟨write_store_ok cipher serde entries password nonce ct hkey henc,
   load_store_append cipher serde entries password nonce ct hkey hnonce hdec hserde⟩

/-- C1 witness: the round-trip exercised on a concrete one-entry store. -/
theorem save_then_load_returns_entries_witness :
    write_store tagAead sepSerde demoEntries demoPassword demoNonce =
      .ok (demoNonce ++ demoCt) ∧
    load_store tagAead sepSerde (some (demoNonce ++ demoCt)) demoPassword =
      .ok demoEntries :=
  save_then_load_returns_entries tagAead sepSerde demoEntries demoPassword
    demoNonce demoCt (by decide) (by decide) (by decide) (by decide) (by decide)

/-- C2: the claim fails on the code.  When the vault file already exists,
the `Init` branch of `main` reports "Store already exists!" but does not
return: it falls through, prompts for a (possibly different) password and
overwrites the vault with a freshly encrypted empty store.  Concretely,
with the vault holding `demoVault`, a second initialize under
`demoPassword2` replaces the file's content instead of performing no
write. -/
theorem init_overwrites_existing_store :
    store_exists (some demoVault) = true ∧
    init_command tagAead sepSerde (some demoVault) demoPassword2 demoNonce =
      (true, some (demoNonce ++ (utf8Encode (sepSerde.dumps []) ++
        utf8Encode demoPassword2 ++ demoNonce))) ∧
    (init_command tagAead sepSerde (some demoVault) demoPassword2 demoNonce).2 ≠
      some demoVault := by decide

/-- C3 (wrong-key rejection): writing the store under a 32-byte password
`p1` and loading under a different 32-byte password `p2` yields
`decryptError` — never a successfully decoded collection — given that the
cipher rejects the wrong-key decryption at those inputs (the AEAD
authentication contract). -/
theorem wrong_password_rejected (cipher : Aead) (serde : Serde)
    (entries : List Entry) (p1 p2 : String) (nonce ct : List Nat)
    (hk1 : (utf8Encode p1).length = 32)
    (hk2 : (utf8Encode p2).length = 32)
    (hne : p1 ≠ p2)
    (hnonce : nonce.length = 12)
    (henc : cipher.encrypt (utf8Encode p1) nonce
      (utf8Encode (serde.dumps entries)) = some ct)
    (hauth : cipher.decrypt (utf8Encode p2) nonce ct = none) :
    write_store cipher serde entries p1 nonce = .ok (nonce ++ ct) ∧
    load_store cipher serde (some (nonce ++ ct)) p2 = .decryptError := by
  refine ⟨write_store_ok cipher serde entries p1 nonce ct hk1 henc, ?_⟩
  have ht : (nonce ++ ct).take 12 = nonce := by
    rw [← hnonce]; exact List.take_left nonce ct
  have hd : (nonce ++ ct).drop 12 = ct := by
    rw [← hnonce]; exact List.drop_left nonce ct
  simp only [load_store, ht, hd, hk2, hnonce, if_true, hauth]

/-- C3 witness: wrong-key rejection exercised on a concrete store. -/
theorem wrong_password_rejected_witness :
    write_store tagAead sepSerde demoEntries demoPassword demoNonce =
      .ok (demoNonce ++ demoCt) ∧
    load_store tagAead sepSerde (some (demoNonce ++ demoCt)) demoPassword2 =
      .decryptError :=
  wrong_password_rejected tagAead sepSerde demoEntries demoPassword demoPassword2
    demoNonce demoCt (by decide) (by decide) (by decide) (by decide) (by decide)
    (by decide)

/-- C4 (tamper detection): modifying any single byte at offset 12 or
beyond of a saved vault file makes `load_store` under the original
password return `decryptError` rather than a corrupted-but-successful
decode — given that the cipher rejects the tampered ciphertext (the AEAD
integrity contract at that input). -/
theorem tampered_file_rejected (cipher : Aead) (serde : Serde)
    (entries : List Entry) (password : String) (nonce ct : List Nat)
    (i b : Nat)
    (hkey : (utf8Encode password).length = 32)
    (hnonce : nonce.length = 12)
    (henc : cipher.encrypt (utf8Encode password) nonce
      (utf8Encode (serde.dumps entries)) = some ct)
    (hlo : 12 ≤ i)
    (hhi : i < (nonce ++ ct).length)
    (hb : (nonce ++ ct)[i]? ≠ some b)
    (hauth : cipher.decrypt (utf8Encode password) nonce (ct.set (i - 12) b) =
      none) :
    write_store cipher serde entries password nonce = .ok (nonce ++ ct) ∧
    (nonce ++ ct).set i b ≠ nonce ++ ct ∧
    load_store cipher serde (some ((nonce ++ ct).set i b)) password =
      .decryptError := by
  have hset : (nonce ++ ct).set i b = nonce ++ ct.set (i - 12) b := by
    rw [List.set_append, hnonce, if_neg (by omega)]
  refine ⟨write_store_ok cipher serde entries password nonce ct hkey henc, ?_, ?_⟩
  · intro hEq
    have h1 : ((nonce ++ ct).set i b)[i]? = some b := List.getElem?_set_self hhi
    rw [hEq] at h1
    exact hb h1
  · rw [hset]
    have ht := take_12_append nonce (ct.set (i - 12) b) hnonce
    have hd := drop_12_append nonce (ct.set (i - 12) b) hnonce
    simp only [load_store, ht, hd, hkey, hnonce, if_true, hauth]

/-- C4 witness: flipping the final tag byte of a concrete vault file. -/
theorem tampered_file_rejected_witness :
    write_store tagAead sepSerde demoEntries demoPassword demoNonce =
      .ok (demoNonce ++ demoCt) ∧
    (demoNonce ++ demoCt).set 75 99 ≠ demoNonce ++ demoCt ∧
    load_store tagAead sepSerde (some ((demoNonce ++ demoCt).set 75 99))
      demoPassword = .decryptError :=
  tampered_file_rejected tagAead sepSerde demoEntries demoPassword demoNonce
    demoCt 75 99 (by decide) (by decide) (by decide) (by decide) (by decide)
    (by decide) (by decide)

/-- C5 (file format): a successful `write_store` produces exactly the
12-byte nonce followed immediately by the ciphertext — no header, version
tag or magic number — and `load_store` processes any file of at least 12
bytes by feeding its first 12 bytes as the nonce and the remainder as the
ciphertext to decryption, followed by the decode stages. -/
theorem file_format_nonce_ciphertext (cipher : Aead) (serde : Serde)
    (entries : List Entry) (password : String) (nonce ct f : List Nat)
    (hkey : (utf8Encode password).length = 32)
    (hnonce : nonce.length = 12)
    (henc : cipher.encrypt (utf8Encode password) nonce
      (utf8Encode (serde.dumps entries)) = some ct)
    (hf : 12 ≤ f.length) :
    write_store cipher serde entries password nonce = .ok (nonce ++ ct) ∧
    (nonce ++ ct).take 12 = nonce ∧ (nonce ++ ct).drop 12 = ct ∧
    load_store cipher serde (some f) password =
      decryptStages serde
        (cipher.decrypt (utf8Encode password) (f.take 12) (f.drop 12)) := by
  refine ⟨write_store_ok cipher serde entries password nonce ct hkey henc,
    ?_, ?_, ?_⟩
  · rw [← hnonce]; exact List.take_left nonce ct
  · rw [← hnonce]; exact List.drop_left nonce ct
  · have hlen : (f.take 12).length = 12 := by
      rw [List.length_take]; omega
    simp only [load_store, hkey, hlen, if_true]
    cases hc : cipher.decrypt (utf8Encode password) (f.take 12) (f.drop 12) with
    | none => rfl
    | some d => simp only [decryptStages]

/-- C5 witness: the format equations exercised on a concrete store. -/
theorem file_format_nonce_ciphertext_witness :
    write_store tagAead sepSerde demoEntries demoPassword demoNonce =
      .ok (demoNonce ++ demoCt) ∧
    (demoNonce ++ demoCt).take 12 = demoNonce ∧
    (demoNonce ++ demoCt).drop 12 = demoCt ∧
    load_store tagAead sepSerde (some (demoNonce ++ demoCt)) demoPassword =
      decryptStages sepSerde (tagAead.decrypt (utf8Encode demoPassword)
        ((demoNonce ++ demoCt).take 12) ((demoNonce ++ demoCt).drop 12)) :=
  file_format_nonce_ciphertext tagAead sepSerde demoEntries demoPassword
    demoNonce demoCt (demoNonce ++ demoCt) (by decide) (by decide) (by decide)
    (by decide)

/-- C6 (nonce uniqueness): two `write_store` calls with identical entries
and password but distinct freshly drawn 12-byte nonces (the RNG inputs)
produce different on-disk byte sequences, and each file independently
decrypts back to the same entry collection — given the cipher and
serializer contracts at those inputs. -/
theorem distinct_nonces_distinct_files (cipher : Aead) (serde : Serde)
    (entries : List Entry) (password : String) (n1 n2 ct1 ct2 : List Nat)
    (hkey : (utf8Encode password).length = 32)
    (h1 : n1.length = 12) (h2 : n2.length = 12) (hne : n1 ≠ n2)
    (henc1 : cipher.encrypt (utf8Encode password) n1
      (utf8Encode (serde.dumps entries)) = some ct1)
    (henc2 : cipher.encrypt (utf8Encode password) n2
      (utf8Encode (serde.dumps entries)) = some ct2)
    (hdec1 : cipher.decrypt (utf8Encode password) n1 ct1 =
      some (utf8Encode (serde.dumps entries)))
    (hdec2 : cipher.decrypt (utf8Encode password) n2 ct2 =
      some (utf8Encode (serde.dumps entries)))
    (hserde : serde.loads (serde.dumps entries) = some entries) :
    write_store cipher serde entries password n1 = .ok (n1 ++ ct1) ∧
    write_store cipher serde entries password n2 = .ok (n2 ++ ct2) ∧
    n1 ++ ct1 ≠ n2 ++ ct2 ∧
    load_store cipher serde (some (n1 ++ ct1)) password = .ok entries ∧
    load_store cipher serde (some (n2 ++ ct2)) password = .ok entries := by
  refine ⟨write_store_ok cipher serde entries password n1 ct1 hkey henc1,
    write_store_ok cipher serde entries password n2 ct2 hkey henc2, ?_,
    load_store_append cipher serde entries password n1 ct1 hkey h1 hdec1 hserde,
    load_store_append cipher serde entries password n2 ct2 hkey h2 hdec2 hserde⟩
  intro hEq
  apply hne
  have htake := congrArg (List.take 12) hEq
  rwa [show (n1 ++ ct1).take 12 = n1 from by rw [← h1]; exact List.take_left n1 ct1,
    show (n2 ++ ct2).take 12 = n2 from by rw [← h2]; exact List.take_left n2 ct2]
    at htake

/-- C6 witness: two saves of the same store under different nonces. -/
theorem distinct_nonces_distinct_files_witness :
    write_store tagAead sepSerde demoEntries demoPassword demoNonce =
      .ok (demoNonce ++ demoCt) ∧
    write_store tagAead sepSerde demoEntries demoPassword demoNonce2 =
      .ok (demoNonce2 ++ demoCt2) ∧
    demoNonce ++ demoCt ≠ demoNonce2 ++ demoCt2 ∧
    load_store tagAead sepSerde (some (demoNonce ++ demoCt)) demoPassword =
      .ok demoEntries ∧
    load_store tagAead sepSerde (some (demoNonce2 ++ demoCt2)) demoPassword =
      .ok demoEntries :=
  distinct_nonces_distinct_files tagAead sepSerde demoEntries demoPassword
    demoNonce demoNonce2 demoCt demoCt2 (by decide) (by decide) (by decide)
    (by decide) (by decide) (by decide) (by decide) (by decide) (by decide)

/-- C7: with the vault file absent, `load_store` returns `notFound` for
every password, cipher and serializer — so neither the cipher nor the
decoder is consulted and nothing is written — and `notFound` is a
constructor distinct from the decryption and decoding failures. -/
theorem missing_file_not_found :
    (∀ (cipher : Aead) (serde : Serde) (password : String),
      load_store cipher serde none password = .notFound) ∧
    LoadResult.notFound ≠ LoadResult.decryptError ∧
    LoadResult.notFound ≠ LoadResult.utf8Error ∧
    LoadResult.notFound ≠ LoadResult.decodeError :=
  ⟨fun _ _ _ => rfl, by decide, by decide, by decide⟩

/-- The in-memory collection produced by the `Remove` branch is exactly
the case-insensitive filter of the input collection. -/
theorem remove_command_entries (cipher : Aead) (serde : Serde)
    (file : Option (List Nat)) (password : String) (entries : List Entry)
    (name : String) (nonce : List Nat) :
    (remove_command cipher serde file password entries name nonce).1 =
      entries.filter (fun e => e.name.toLower != name.toLower) := by
  simp only [remove_command]
  split
  · rfl
  · split <;> rfl

/-- C8: the `Remove` operation deletes every entry whose name matches the
requested name case-insensitively (not only the first match), keeps every
non-matching entry, preserves their original order, and when no entry
matches it leaves both the in-memory collection and the on-disk file
unchanged. -/
theorem remove_deletes_all_matches (cipher : Aead) (serde : Serde)
    (file : Option (List Nat)) (password : String) (entries : List Entry)
    (name : String) (nonce : List Nat) :
    (∀ e ∈ (remove_command cipher serde file password entries name nonce).1,
      e.name.toLower ≠ name.toLower) ∧
    (∀ e ∈ entries, e.name.toLower ≠ name.toLower →
      e ∈ (remove_command cipher serde file password entries name nonce).1) ∧
    ((remove_command cipher serde file password entries name nonce).1).Sublist
      entries ∧
    ((∀ e ∈ entries, e.name.toLower ≠ name.toLower) →
      remove_command cipher serde file password entries name nonce =
        (entries, file)) := by
  have hfst := remove_command_entries cipher serde file password entries name nonce
  refine ⟨?_, ?_, ?_, ?_⟩
  · intro e he
    rw [hfst] at he
    have hp := (List.mem_filter.mp he).2
    simpa using hp
  · intro e he hne
    rw [hfst]
    exact List.mem_filter.mpr ⟨he, by simpa using hne⟩
  · rw [hfst]
    exact List.filter_sublist entries
  · intro hall
    have hfilter : entries.filter (fun e => e.name.toLower != name.toLower) =
        entries :=
      List.filter_eq_self.mpr (fun e he => by simpa using hall e he)
    simp only [remove_command, hfilter, if_pos]

/-- C8 witness: removal exercised with a differently cased name. -/
theorem remove_deletes_all_matches_witness :
    (∀ e ∈ (remove_command tagAead sepSerde (some (demoNonce ++ demoCt))
        demoPassword demoEntries "GitHub" demoNonce2).1,
      e.name.toLower ≠ "GitHub".toLower) ∧
    (∀ e ∈ demoEntries, e.name.toLower ≠ "GitHub".toLower →
      e ∈ (remove_command tagAead sepSerde (some (demoNonce ++ demoCt))
        demoPassword demoEntries "GitHub" demoNonce2).1) ∧
    ((remove_command tagAead sepSerde (some (demoNonce ++ demoCt))
      demoPassword demoEntries "GitHub" demoNonce2).1).Sublist demoEntries ∧
    ((∀ e ∈ demoEntries, e.name.toLower ≠ "GitHub".toLower) →
      remove_command tagAead sepSerde (some (demoNonce ++ demoCt))
        demoPassword demoEntries "GitHub" demoNonce2 =
        (demoEntries, some (demoNonce ++ demoCt))) :=
  remove_deletes_all_matches tagAead sepSerde (some (demoNonce ++ demoCt))
    demoPassword demoEntries "GitHub" demoNonce2

/-- C9 counterexample: the claim quantifies over every password of UTF-8
byte length other than 32 and asserts both operations panic; but with the
vault file absent, `load_store` returns the typed `notFound` error before
key construction is ever reached, so it does not panic. -/
theorem load_no_panic_when_file_missing :
    (utf8Encode "a").length ≠ 32 ∧
    load_store tagAead sepSerde none "a" = LoadResult.notFound ∧
    LoadResult.notFound ≠ LoadResult.panicKeyLength := by decide

/-- C9 (amended): with a password of UTF-8 byte length other than 32,
`write_store` always panics at key construction, and `load_store` panics
at key construction whenever the vault file exists (when it is absent,
`load_store` returns `notFound` before reaching key construction);
conversely, with a password of exactly 32 bytes, key construction never
panics in either operation. -/
theorem key_construction_panic (cipher : Aead) (serde : Serde)
    (entries : List Entry) (password : String) (nonce : List Nat) :
    ((utf8Encode password).length ≠ 32 →
      write_store cipher serde entries password nonce = .panicKeyLength ∧
      ∀ content : List Nat,
        load_store cipher serde (some content) password = .panicKeyLength) ∧
    ((utf8Encode password).length = 32 →
      write_store cipher serde entries password nonce ≠ .panicKeyLength ∧
      ∀ file : Option (List Nat),
        load_store cipher serde file password ≠ .panicKeyLength) := by
  constructor
  · intro hlen
    refine ⟨?_, fun content => ?_⟩
    · simp only [write_store, if_neg hlen]
    · simp only [load_store, if_neg hlen]
  · intro hlen
    refine ⟨?_, fun file => ?_⟩
    · simp only [write_store, hlen, if_true]
      split <;> simp
    · cases file with
      | none => simp [load_store]
      | some content =>
        simp only [load_store, hlen, if_true]
        split
        · split
          · simp
          · split
            · simp
            · split <;> simp
        · simp

/-- C9 witness: both halves of the amended claim at concrete inputs: the
empty password (0 bytes) panics in `write_store` and in `load_store` on
an existing file, while a 32-byte password does not panic at key
construction. -/
theorem key_construction_panic_witness :
    write_store tagAead sepSerde [] "" demoNonce = WriteResult.panicKeyLength ∧
    load_store tagAead sepSerde (some demoVault) "" =
      LoadResult.panicKeyLength ∧
    load_store tagAead sepSerde (some demoVault) demoPassword ≠
      LoadResult.panicKeyLength :=
  ⟨((key_construction_panic tagAead sepSerde [] "" demoNonce).1 (by decide)).1,
   ((key_construction_panic tagAead sepSerde [] "" demoNonce).1
     (by decide)).2 demoVault,
   ((key_construction_panic tagAead sepSerde [] demoPassword demoNonce).2
     (by decide)).2 (some demoVault)⟩

/-- C10 counterexample: the claim quantifies over every existing vault
file shorter than 12 bytes and asserts the nonce construction panics; but
key construction precedes nonce construction in `load_store`, so with a
password of the wrong byte length the key-construction panic fires
instead of the claimed nonce-construction panic. -/
theorem short_file_key_panic_first :
    store_exists (some []) = true ∧
    ([] : List Nat).length < 12 ∧
    load_store tagAead sepSerde (some []) "" = LoadResult.panicKeyLength ∧
    LoadResult.panicKeyLength ≠ LoadResult.panicNonceLength := by decide

/-- C10 (amended): for a password of exactly 32 UTF-8 bytes (the only
kind the CLI's prompt lets through), `load_store` on an existing vault
file shorter than 12 bytes panics at nonce construction; on a file of at
least 12 bytes the nonce construction never panics. -/
theorem nonce_construction_panic (cipher : Aead) (serde : Serde)
    (password : String) (content : List Nat)
    (hkey : (utf8Encode password).length = 32) :
    (content.length < 12 →
      load_store cipher serde (some content) password = .panicNonceLength) ∧
    (12 ≤ content.length →
      load_store cipher serde (some content) password ≠ .panicNonceLength) := by
  constructor
  · intro hshort
    have hlen : ¬(content.take 12).length = 12 := by
      rw [List.length_take]; omega
    simp only [load_store, hkey, if_true, if_neg hlen]
  · intro hlong
    have hlen : (content.take 12).length = 12 := by
      rw [List.length_take]; omega
    simp only [load_store, hkey, hlen, if_true]
    split
    · simp
    · split
      · simp
      · split <;> simp

/-- C10 witness: both halves of the amended claim at concrete inputs: a
1-byte vault file panics at nonce construction under a 32-byte password,
while a full-size vault file does not. -/
theorem nonce_construction_panic_witness :
    load_store tagAead sepSerde (some [5]) demoPassword =
      LoadResult.panicNonceLength ∧
    load_store tagAead sepSerde (some (demoNonce ++ demoCt)) demoPassword ≠
      LoadResult.panicNonceLength :=
  ⟨(nonce_construction_panic tagAead sepSerde demoPassword [5]
      (by decide)).1 (by decide),
   (nonce_construction_panic tagAead sepSerde demoPassword (demoNonce ++ demoCt)
      (by decide)).2 (by decide)⟩

end Ppa
